import Mathlib

/-!
Shallow embedding of the inundation-depth extraction pipeline (`app.py`).

The program's core is three functions plus a driver loop:
* `download_file url` — resolves a URL to a cached local file path, or `None`;
* `extract_sampled_depths tiff_path sample_limit` — opens a raster, keeps
  pixels that are valid and strictly positive, draws a bounded random
  subsample, and returns a three-column table;
* `append_to_output_file df` — merges new rows into the persisted CSV,
  dropping rows that duplicate an earlier row across all three fields.

Modelling choices:
* Strings (URLs, paths) are `List Char`, so that concrete instances reduce
  inside the kernel.  `String.toList` literals connect them to readable text.
* Pixel values are `ℚ` (the claims under study do not involve NaN or
  rounding, only exact comparison against a sentinel and comparison with 0).
* The filesystem is an explicit record of existing directories and files;
  `os.path.exists` and `os.path.join` are modelled on it, including the
  POSIX behaviour that a path with a trailing `/` exists exactly when the
  corresponding directory exists, and `os.path.join(d, "") = d ++ "/"`.
* The HTTP layer is a function from URL to status code, and `download_file`
  additionally reports how many network transfers it performed.
* `np.random.choice(n, k, replace=False)` is an oracle parameter
  `choice : ℕ → List ℕ`; theorems assume of it exactly what numpy
  guarantees (length `k`, no duplicates, indices below `n`).
* `rasterio.open` failures are modelled by feeding the sampler an
  `Except`-value: the `try`/`except` in the source catches any such failure
  and returns the empty three-column table.
-/

abbrev Str := List Char

/-- `DOWNLOAD_FOLDER = "downloads"` from the source's constants. -/
def DOWNLOAD_FOLDER : Str := "downloads".toList

/-- `OUTPUT_FILE = "output.csv"` from the source's constants. -/
def OUTPUT_FILE : Str := "output.csv".toList

/-- `SAMPLE_LIMIT = 100000` from the source's constants. -/
def SAMPLE_LIMIT : ℕ := 100000

/-- The filesystem as the program observes it: which directories and which
files currently exist. -/
structure FileSystem where
  dirs : List Str
  files : List Str
deriving DecidableEq

/-- Model of `os.path.exists p`: true when `p` names an existing file or
directory; a path spelled with a trailing slash exists exactly when the
directory it denotes exists. -/
def pathExists (fs : FileSystem) (p : Str) : Bool :=
  decide (p ∈ fs.files) || decide (p ∈ fs.dirs) ||
    (decide (p.getLast? = some '/') && decide (p.dropLast ∈ fs.dirs))

/-- Model of `os.makedirs(DOWNLOAD_FOLDER, exist_ok=True)`. -/
def mkCacheDir (fs : FileSystem) : FileSystem :=
  if DOWNLOAD_FOLDER ∈ fs.dirs then fs else ⟨DOWNLOAD_FOLDER :: fs.dirs, fs.files⟩

/-- One step of the `str.split("/")` model: fold a character onto the list
of segments built so far. -/
def splitStep (c : Char) (acc : List Str) : List Str :=
  match acc with
  | [] => if c = '/' then [[], []] else [[c]]
  | seg :: rest => if c = '/' then [] :: (seg :: rest) else (c :: seg) :: rest

/-- Model of Python's `url.split("/")`: on the empty string it yields one
empty segment, and each `'/'` separates two (possibly empty) segments. -/
def splitOnSlash (s : Str) : List Str :=
  s.foldr splitStep [[]]

/-- `url.split("/")[-1]` — the final path segment of the URL. -/
def lastSegment (url : Str) : Str :=
  (splitOnSlash url).getLastD []

/-- Model of `os.path.join(d, f)` for a directory `d` and a relative name
`f`; note `os.path.join(d, "") = d ++ "/"`. -/
def joinPath (d f : Str) : Str := d ++ ['/'] ++ f

/-- Result of `download_file`: the returned path (or `none`), the filesystem
afterwards, and how many network transfers were performed. -/
structure FetchResult where
  path : Option Str
  fs : FileSystem
  transfers : ℕ
deriving DecidableEq

/-- Embedding of `download_file(url)` (`app.py` lines 17–29): ensure the
cache directory exists, derive the filename from the URL's final path
segment, return the cached path on a hit, otherwise issue the request and
keep the body only on status 200. -/
def download_file (http : Str → ℕ) (fs : FileSystem) (url : Str) : FetchResult :=
  let fs1 := mkCacheDir fs
  let filename := lastSegment url
  let filepath := joinPath DOWNLOAD_FOLDER filename
  if pathExists fs1 filepath then ⟨some filepath, fs1, 0⟩
  else if http url = 200 then ⟨some filepath, ⟨fs1.dirs, filepath :: fs1.files⟩, 1⟩
  else ⟨none, fs1, 1⟩

/-- Embedding of `download_file(url)` when the transport itself may raise:
`requests.get` (`app.py` line 23) can throw, e.g. a connection error, and
the body of `download_file` contains no `try`/`except`, so a raised
transport exception aborts the function and propagates to its caller.  The
transport oracle answers either `Except.ok status` (a response) or
`Except.error e` (a raised exception).  Restricted to non-raising
transports this agrees with `download_file`
(lemma `download_file_exc_ok_http`). -/
def download_file_exc (httpE : Str → Except String ℕ) (fs : FileSystem) (url : Str) :
    Except String FetchResult :=
  let fs1 := mkCacheDir fs
  let filename := lastSegment url
  let filepath := joinPath DOWNLOAD_FOLDER filename
  if pathExists fs1 filepath then Except.ok ⟨some filepath, fs1, 0⟩
  else
    match httpE url with
    | Except.error e => Except.error e
    | Except.ok status =>
      if status = 200 then Except.ok ⟨some filepath, ⟨fs1.dirs, filepath :: fs1.files⟩, 1⟩
      else Except.ok ⟨none, fs1, 1⟩

/-- A single-band raster as `rasterio` presents it: band shape, the pixel
grid, the declared no-data sentinel (absent when the file declares none),
and the affine pixel-to-geographic map `rasterio.transform.xy` realises
(given here directly as row/col ↦ (x, y)). -/
structure Raster where
  nrows : ℕ
  ncols : ℕ
  band : ℕ → ℕ → ℚ
  nodata : Option ℚ
  transform : ℕ → ℕ → ℚ × ℚ

/-- The per-pixel test of `valid_mask = (band != nodata) & (band > 0)`
(`app.py` line 37).  When `src.nodata` is `None`, numpy's elementwise
`band != None` is `True` for every numeric element, so only `band > 0`
remains. -/
def pixelValid (nodata : Option ℚ) (v : ℚ) : Bool :=
  (match nodata with
   | some nd => decide (v ≠ nd)
   | none => true) && decide (0 < v)

/-- The valid positions of one band row, in column order. -/
def rowValid (R : Raster) (r : ℕ) : List (ℕ × ℕ) :=
  (List.range R.ncols).filterMap fun c =>
    if pixelValid R.nodata (R.band r c) then some (r, c) else none

/-- `np.argwhere(valid_mask)` (`app.py` line 38): the valid (row, col)
positions in row-major order. -/
def validIndices (R : Raster) : List (ℕ × ℕ) :=
  (List.range R.nrows).flatMap (rowValid R)

/-- The positions the sampler selects (`app.py` lines 41–44): when the
valid count exceeds the cap, the rows of `valid_indices` picked by
`np.random.choice(len(valid_indices), sample_limit, replace=False)`
(modelled by the `choice` oracle); otherwise all valid positions. -/
def sampledIndices (choice : ℕ → List ℕ) (R : Raster) (cap : ℕ) : List (ℕ × ℕ) :=
  let vi := validIndices R
  if vi.length > cap then (choice vi.length).map (fun i => vi.getD i (0, 0)) else vi

/-- A pandas DataFrame as the program uses it: a column header and rows of
(longitude, latitude, depth) triples. -/
structure DataFrame where
  columns : List String
  rows : List (ℚ × ℚ × ℚ)

/-- The fixed column header `["Longitude", "Latitude", "InundationDepth_m"]`. -/
def tiffColumns : List String := ["Longitude", "Latitude", "InundationDepth_m"]

/-- Embedding of the body of `extract_sampled_depths` (`app.py` lines
34–49), after the raster has been opened successfully. -/
def extract_sampled_depths (choice : ℕ → List ℕ) (R : Raster) (cap : ℕ) : DataFrame :=
  let vi := validIndices R
  if vi.length = 0 then ⟨tiffColumns, []⟩
  else
    let si := sampledIndices choice R cap
    ⟨tiffColumns,
      si.map fun p => ((R.transform p.1 p.2).1, (R.transform p.1 p.2).2, R.band p.1 p.2)⟩

/-- Embedding of `extract_sampled_depths` including its `try`/`except`
(`app.py` lines 33, 50–52): when opening or reading the raster fails, the
failure is caught and the empty three-column table is returned. -/
def extract_sampled_depths_safe (choice : ℕ → List ℕ) (src : Except String Raster)
    (cap : ℕ) : DataFrame :=
  match src with
  | Except.error _ => ⟨tiffColumns, []⟩
  | Except.ok R => extract_sampled_depths choice R cap

/-- A row of the output table. -/
abbrev Row := ℚ × ℚ × ℚ

/-- Helper for `drop_duplicates`: keep each row not already seen, first
occurrence wins. -/
def dropDupAux (seen : List Row) : List Row → List Row
  | [] => []
  | r :: rs => if r ∈ seen then dropDupAux seen rs else r :: dropDupAux (r :: seen) rs

/-- Model of `DataFrame.drop_duplicates(subset=all three columns)` with
pandas' default `keep="first"`. -/
def drop_duplicates (l : List Row) : List Row := dropDupAux [] l

/-- Embedding of `append_to_output_file(df)` (`app.py` lines 54–61): load
the persisted table when it exists, concatenate prior rows before the new
ones, drop exact-duplicate rows keeping the first occurrence, and persist
the result. -/
def append_to_output_file (existing : Option (List Row)) (df : List Row) : List Row :=
  let combined :=
    match existing with
    | some existing_df => existing_df ++ df
    | none => df
  drop_duplicates combined

/-- Pipeline state: the filesystem plus the persisted output table
(`none` when `output.csv` does not exist yet). -/
structure PipeState where
  fs : FileSystem
  table : Option (List Row)

/-- One iteration of the driver loop (`app.py` lines 79–86): fetch the URL;
on a path, sample it (reading the raster at that path through `rasterAt`)
and merge any non-empty result into the persisted table. -/
def processUrl (http : Str → ℕ) (choice : ℕ → List ℕ)
    (rasterAt : Str → Except String Raster) (st : PipeState) (url : Str) : PipeState :=
  let res := download_file http st.fs url
  match res.path with
  | none => ⟨res.fs, st.table⟩
  | some tiff_path =>
    let df := extract_sampled_depths_safe choice (rasterAt tiff_path) SAMPLE_LIMIT
    if df.rows.isEmpty then ⟨res.fs, st.table⟩
    else ⟨res.fs, some (append_to_output_file st.table df.rows)⟩

/-- The driver loop over the whole batch of URLs. -/
def processAll (http : Str → ℕ) (choice : ℕ → List ℕ)
    (rasterAt : Str → Except String Raster) (urls : List Str) (st : PipeState) : PipeState :=
  urls.foldl (processUrl http choice rasterAt) st

/-- One driver iteration with a transport that may raise: the driver loop
(`app.py` lines 79–86) wraps `download_file(url)` in no `try`/`except`
either, so a transport exception raised inside the fetch step propagates
out of the loop body and aborts the batch. -/
def processUrl_exc (httpE : Str → Except String ℕ) (choice : ℕ → List ℕ)
    (rasterAt : Str → Except String Raster) (st : PipeState) (url : Str) :
    Except String PipeState :=
  match download_file_exc httpE st.fs url with
  | Except.error e => Except.error e
  | Except.ok res =>
    Except.ok
      (match res.path with
       | none => ⟨res.fs, st.table⟩
       | some tiff_path =>
         let df := extract_sampled_depths_safe choice (rasterAt tiff_path) SAMPLE_LIMIT
         if df.rows.isEmpty then ⟨res.fs, st.table⟩
         else ⟨res.fs, some (append_to_output_file st.table df.rows)⟩)

/-! ### Concrete instances (used to instantiate the general theorems) -/

/-- A 2×2 raster with three valid pixels (values 1, 2, 3) and one zero pixel. -/
def rasterThreeValid : Raster where
  nrows := 2
  ncols := 2
  band := fun r c =>
    if r = 0 ∧ c = 0 then 1 else if r = 0 ∧ c = 1 then 2 else if r = 1 ∧ c = 0 then 3 else 0
  nodata := some 99
  transform := fun r c => ((c : ℚ), (r : ℚ))

/-- A 2×2 raster whose pixels are all zero, so it has no valid pixel. -/
def rasterAllZero : Raster where
  nrows := 2
  ncols := 2
  band := fun _ _ => 0
  nodata := none
  transform := fun _ _ => (0, 0)

/-- A 2×2 raster that declares no no-data sentinel. -/
def rasterNoSentinel : Raster where
  nrows := 2
  ncols := 2
  band := fun r c => if r = 0 ∧ c = 0 then 0 else 7
  nodata := none
  transform := fun _ _ => (0, 0)

/-- A sampling oracle that always picks indices 0 and 2. -/
def choicePickTwo : ℕ → List ℕ := fun _ => [0, 2]

/-- A sampling oracle that picks nothing. -/
def choiceNone : ℕ → List ℕ := fun _ => []

/-- An HTTP layer that always answers 200. -/
def httpOk : Str → ℕ := fun _ => 200

/-- An HTTP layer that always answers 500. -/
def httpFail : Str → ℕ := fun _ => 500

/-- A raising-capable transport that always responds with status 200. -/
def httpOkE : Str → Except String ℕ := fun _ => Except.ok 200

/-- A raising-capable transport that always raises a connection error. -/
def httpRaise : Str → Except String ℕ := fun _ => Except.error "ConnectionError"

/-- A raster reader that fails on every path. -/
def rasterAtFail : Str → Except String Raster := fun _ => Except.error "unreadable"

/-- The empty filesystem. -/
def emptyFS : FileSystem := ⟨[], []⟩

/-- An initial pipeline state: empty filesystem, no persisted table yet. -/
def initState : PipeState := ⟨emptyFS, none⟩

/-! ### Accumulator lemmas -/

lemma dropDupAux_nodup_notmem (l : List Row) :
    ∀ seen, (dropDupAux seen l).Nodup ∧ ∀ r ∈ dropDupAux seen l, r ∉ seen := by
  induction l with
  | nil => intro seen; simp [dropDupAux]
  | cons r rs ih =>
    intro seen
    by_cases h : r ∈ seen
    · simpa only [dropDupAux, if_pos h] using ih seen
    · simp only [dropDupAux, if_neg h]
      refine ⟨List.nodup_cons.mpr ⟨fun hmem => ?_, (ih (r :: seen)).1⟩, ?_⟩
      · exact (ih (r :: seen)).2 r hmem (List.mem_cons_self r seen)
      · intro x hx
        rcases List.mem_cons.mp hx with rfl | hx'
        · exact h
        · exact fun hxs => (ih (r :: seen)).2 x hx' (List.mem_cons_of_mem _ hxs)

lemma dropDupAux_sublist (l : List Row) : ∀ seen, (dropDupAux seen l).Sublist l := by
  induction l with
  | nil => intro seen; simp [dropDupAux]
  | cons r rs ih =>
    intro seen
    by_cases h : r ∈ seen
    · simpa only [dropDupAux, if_pos h] using (ih seen).cons r
    · simpa only [dropDupAux, if_neg h] using (ih (r :: seen)).cons₂ r

lemma dropDupAux_congr (l : List Row) :
    ∀ s₁ s₂, (∀ x, x ∈ s₁ ↔ x ∈ s₂) → dropDupAux s₁ l = dropDupAux s₂ l := by
  induction l with
  | nil => intro s₁ s₂ _; rfl
  | cons r rs ih =>
    intro s₁ s₂ hmem
    by_cases h : r ∈ s₁
    · rw [dropDupAux, dropDupAux, if_pos h, if_pos ((hmem r).mp h), ih s₁ s₂ hmem]
    · rw [dropDupAux, dropDupAux, if_neg h, if_neg (fun hc => h ((hmem r).mpr hc))]
      refine congrArg _ (ih (r :: s₁) (r :: s₂) fun x => ?_)
      simp only [List.mem_cons, hmem x]

lemma dropDupAux_append (E : List Row) :
    ∀ seen N, E.Nodup → (∀ x ∈ E, x ∉ seen) →
      dropDupAux seen (E ++ N) = E ++ dropDupAux (E ++ seen) N := by
  induction E with
  | nil => intro seen N _ _; simp
  | cons a E' ih =>
    intro seen N hnd hdisj
    have ha : a ∉ seen := hdisj a (List.mem_cons_self a E')
    have haE' : a ∉ E' := (List.nodup_cons.mp hnd).1
    rw [List.cons_append, dropDupAux, if_neg ha,
      ih (a :: seen) N (List.nodup_cons.mp hnd).2 ?disj, List.cons_append]
    · refine congrArg _ (congrArg _ (dropDupAux_congr N _ _ fun x => ?_))
      simp only [List.mem_append, List.mem_cons]
      tauto
    case disj =>
      intro x hx
      simp only [List.mem_cons, not_or]
      exact ⟨fun hxa => haE' (hxa ▸ hx), hdisj x (List.mem_cons_of_mem _ hx)⟩

lemma dropDupAux_nil_of_subset (l : List Row) :
    ∀ seen, (∀ x ∈ l, x ∈ seen) → dropDupAux seen l = [] := by
  induction l with
  | nil => intro seen _; rfl
  | cons r rs ih =>
    intro seen hsub
    rw [dropDupAux, if_pos (hsub r (List.mem_cons_self r rs))]
    exact ih seen fun x hx => hsub x (List.mem_cons_of_mem _ hx)

/-! ### Fetcher lemmas -/

lemma mkCacheDir_dirs_mem (fs : FileSystem) : DOWNLOAD_FOLDER ∈ (mkCacheDir fs).dirs := by
  unfold mkCacheDir
  split
  · assumption
  · exact List.mem_cons_self _ _

lemma mkCacheDir_eq_self (fs : FileSystem) (h : DOWNLOAD_FOLDER ∈ fs.dirs) :
    mkCacheDir fs = fs := by
  unfold mkCacheDir
  exact if_pos h

lemma pathExists_of_file (fs : FileSystem) (p : Str) (h : p ∈ fs.files) :
    pathExists fs p = true := by
  simp [pathExists, h]

lemma pathExists_dir_slash (fs : FileSystem) (d : Str) (h : d ∈ fs.dirs) :
    pathExists fs (d ++ ['/']) = true := by
  simp only [pathExists, Bool.or_eq_true, Bool.and_eq_true, decide_eq_true_eq]
  refine Or.inr ⟨?_, ?_⟩
  · rw [List.getLast?_concat]
  · rw [List.dropLast_concat]
    exact h

lemma splitStep_last (c : Char) (acc : List Str) (h : 2 ≤ acc.length) :
    2 ≤ (splitStep c acc).length ∧ (splitStep c acc).getLastD [] = acc.getLastD [] := by
  match acc, h with
  | seg :: s2 :: rest, _ =>
    unfold splitStep
    by_cases hc : c = '/' <;>
      simp [hc, List.getLastD_cons]

lemma foldr_splitStep_last (s : Str) (acc : List Str) (h : 2 ≤ acc.length) :
    2 ≤ (s.foldr splitStep acc).length ∧ (s.foldr splitStep acc).getLastD [] = acc.getLastD [] := by
  induction s with
  | nil => exact ⟨h, rfl⟩
  | cons c cs ih =>
    obtain ⟨ih1, ih2⟩ := ih
    obtain ⟨h1, h2⟩ := splitStep_last c _ ih1
    exact ⟨h1, h2.trans ih2⟩

lemma lastSegment_append_slash (s : Str) : lastSegment (s ++ ['/']) = [] := by
  unfold lastSegment splitOnSlash
  rw [List.foldr_append]
  have hstep : List.foldr splitStep [[]] ['/'] = [[], []] := rfl
  rw [hstep]
  exact (foldr_splitStep_last s [[], []] (by simp)).2

lemma download_file_path_shape (http : Str → ℕ) (fs : FileSystem) (url : Str) :
    (download_file http fs url).path = none ∨
      (download_file http fs url).path = some (joinPath DOWNLOAD_FOLDER (lastSegment url)) := by
  by_cases h1 : pathExists (mkCacheDir fs) (joinPath DOWNLOAD_FOLDER (lastSegment url)) = true
  · right
    simp [download_file, h1]
  · by_cases h2 : http url = 200
    · right
      simp [download_file, h1, h2]
    · left
      simp [download_file, h1, h2]

lemma download_file_exc_ok_http (http : Str → ℕ) (fs : FileSystem) (url : Str) :
    download_file_exc (fun u => Except.ok (http u)) fs url
      = Except.ok (download_file http fs url) := by
  by_cases hhit : pathExists (mkCacheDir fs) (joinPath DOWNLOAD_FOLDER (lastSegment url))
      = true
  · simp [download_file_exc, download_file, hhit]
  · have hmiss : pathExists (mkCacheDir fs) (joinPath DOWNLOAD_FOLDER (lastSegment url))
        = false := by
      simpa using hhit
    by_cases h200 : http url = 200 <;>
      simp [download_file_exc, download_file, hmiss, h200]

/-! ### Sampler lemmas -/

lemma mem_rowValid (R : Raster) (r : ℕ) (x : ℕ × ℕ) :
    x ∈ rowValid R r ↔
      x.1 = r ∧ x.2 < R.ncols ∧ pixelValid R.nodata (R.band r x.2) = true := by
  obtain ⟨a, b⟩ := x
  simp only [rowValid, List.mem_filterMap, List.mem_range]
  constructor
  · rintro ⟨c, hc, hsome⟩
    by_cases hv : pixelValid R.nodata (R.band r c) = true
    · rw [if_pos hv] at hsome
      cases hsome
      exact ⟨rfl, hc, hv⟩
    · rw [if_neg hv] at hsome
      cases hsome
  · rintro ⟨rfl, hb, hv⟩
    exact ⟨b, hb, by rw [if_pos hv]⟩

lemma rowValid_nodup (R : Raster) (r : ℕ) : (rowValid R r).Nodup := by
  refine List.Nodup.filterMap ?_ (List.nodup_range _)
  intro a a' b hb hb'
  rw [Option.mem_def] at hb hb'
  have ha : b = (r, a) := by
    split at hb
    · exact (Option.some_inj.mp hb).symm
    · cases hb
  have ha' : b = (r, a') := by
    split at hb'
    · exact (Option.some_inj.mp hb').symm
    · cases hb'
  have : (r, a) = ((r, a') : ℕ × ℕ) := ha ▸ ha'
  exact (Prod.mk.injEq _ _ _ _ ▸ this).2

lemma mem_validIndices (R : Raster) (x : ℕ × ℕ) :
    x ∈ validIndices R ↔
      x.1 < R.nrows ∧ x.2 < R.ncols ∧ pixelValid R.nodata (R.band x.1 x.2) = true := by
  simp only [validIndices, List.mem_flatMap, List.mem_range]
  constructor
  · rintro ⟨r, hr, hx⟩
    obtain ⟨h1, h2, h3⟩ := (mem_rowValid R r x).mp hx
    subst h1
    exact ⟨hr, h2, h3⟩
  · rintro ⟨h1, h2, h3⟩
    exact ⟨x.1, h1, (mem_rowValid R x.1 x).mpr ⟨rfl, h2, h3⟩⟩

lemma validIndices_nodup (R : Raster) : (validIndices R).Nodup := by
  rw [validIndices, List.nodup_flatMap]
  refine ⟨fun r _ => rowValid_nodup R r, ?_⟩
  refine (List.pairwise_lt_range R.nrows).imp ?_
  intro a b hab
  intro x hx hx'
  have h1 := ((mem_rowValid R a x).mp hx).1
  have h2 := ((mem_rowValid R b x).mp hx').1
  omega

lemma sampledIndices_spec (choice : ℕ → List ℕ) (R : Raster) (cap : ℕ)
    (hchoice : (validIndices R).length > cap →
      (choice (validIndices R).length).length = cap ∧
      (choice (validIndices R).length).Nodup ∧
      ∀ i ∈ choice (validIndices R).length, i < (validIndices R).length) :
    (sampledIndices choice R cap).length = min (validIndices R).length cap ∧
    (sampledIndices choice R cap).Nodup ∧
    (∀ x ∈ sampledIndices choice R cap, x ∈ validIndices R) ∧
    ((validIndices R).length ≤ cap → sampledIndices choice R cap = validIndices R) := by
  by_cases hgt : (validIndices R).length > cap
  · obtain ⟨hlen, hnd, hbd⟩ := hchoice hgt
    have hsi : sampledIndices choice R cap
        = (choice (validIndices R).length).map (fun i => (validIndices R).getD i (0, 0)) := by
      simp [sampledIndices, hgt]
    refine ⟨?_, ?_, ?_, ?_⟩
    · rw [hsi, List.length_map, hlen, Nat.min_eq_right (Nat.le_of_lt hgt)]
    · rw [hsi]
      refine hnd.map_on ?_
      intro i hi j hj hij
      rw [List.getD_eq_getElem _ _ (hbd i hi), List.getD_eq_getElem _ _ (hbd j hj)] at hij
      exact ((validIndices_nodup R).getElem_inj_iff).mp hij
    · intro x hx
      rw [hsi] at hx
      obtain ⟨i, hi, rfl⟩ := List.mem_map.mp hx
      rw [List.getD_eq_getElem _ _ (hbd i hi)]
      exact List.getElem_mem _
    · intro hle
      omega
  · have hsi : sampledIndices choice R cap = validIndices R := by
      simp [sampledIndices, hgt]
    rw [hsi]
    exact ⟨(Nat.min_eq_left (Nat.le_of_not_lt hgt)).symm ▸ rfl,
      validIndices_nodup R, fun x hx => hx, fun _ => rfl⟩

lemma extract_sampled_depths_eq (choice : ℕ → List ℕ) (R : Raster) (cap : ℕ) :
    (extract_sampled_depths choice R cap).columns = tiffColumns ∧
    (extract_sampled_depths choice R cap).rows
      = (sampledIndices choice R cap).map
          (fun p => ((R.transform p.1 p.2).1, (R.transform p.1 p.2).2, R.band p.1 p.2)) := by
  by_cases h0 : (validIndices R).length = 0
  · have hvi : validIndices R = [] := List.length_eq_zero.mp h0
    have hsi : sampledIndices choice R cap = [] := by
      simp [sampledIndices, hvi]
    simp [extract_sampled_depths, h0, hsi]
  · simp [extract_sampled_depths, h0]

/-! ### Claim theorems -/

/-- C2: for every pixel of a raster with a declared no-data sentinel, the
validity predicate holds if and only if the value differs from the sentinel
and is strictly greater than zero; in particular a sentinel-valued pixel is
excluded even when positive, values 0 and -5 are excluded, and 0.01 is
included. -/
theorem pixelValid_sentinel_and_positive :
    (∀ nd v : ℚ, pixelValid (some nd) v = true ↔ v ≠ nd ∧ 0 < v) ∧
    pixelValid (some 5) 5 = false ∧
    pixelValid (some 9) 0 = false ∧
    pixelValid (some 9) (-5) = false ∧
    pixelValid (some 9) (1 / 100) = true := by
  refine ⟨fun nd v => ?_, ?_, ?_, ?_, ?_⟩
  · simp [pixelValid]
  · simp [pixelValid]
  · simp [pixelValid]
  · norm_num [pixelValid]
  · norm_num [pixelValid]

/-- C9: for a raster that declares no no-data sentinel, validity degenerates
to strict positivity: a position is a valid index exactly when it is in
bounds and its value is positive, and no pixel is excluded by the sentinel
comparison. -/
theorem validity_no_sentinel_reduces_to_positive (R : Raster) (h : R.nodata = none)
    (r c : ℕ) :
    ((r, c) ∈ validIndices R ↔ r < R.nrows ∧ c < R.ncols ∧ 0 < R.band r c) ∧
    (∀ v : ℚ, pixelValid R.nodata v = true ↔ 0 < v) := by
  constructor
  · rw [mem_validIndices]
    simp [pixelValid, h]
  · intro v
    simp [pixelValid, h]

/-- Witness for C9 on a concrete sentinel-free raster. -/
theorem validity_no_sentinel_reduces_to_positive_witness :
    rasterNoSentinel.nodata = none ∧
    ((((0, 1) : ℕ × ℕ) ∈ validIndices rasterNoSentinel ↔
        0 < rasterNoSentinel.nrows ∧ 1 < rasterNoSentinel.ncols ∧
          0 < rasterNoSentinel.band 0 1) ∧
      (∀ v : ℚ, pixelValid rasterNoSentinel.nodata v = true ↔ 0 < v)) :=
  ⟨rfl, validity_no_sentinel_reduces_to_positive rasterNoSentinel rfl 0 1⟩

/-- C7: for a raster with zero valid pixels, `sample` returns a zero-row
table with exactly the three expected columns. -/
theorem sample_no_valid_pixels_empty (choice : ℕ → List ℕ) (R : Raster) (cap : ℕ)
    (h : validIndices R = []) :
    (extract_sampled_depths choice R cap).rows = [] ∧
    (extract_sampled_depths choice R cap).columns
      = ["Longitude", "Latitude", "InundationDepth_m"] := by
  have h0 : (validIndices R).length = 0 := by rw [h]; rfl
  refine ⟨?_, (extract_sampled_depths_eq choice R cap).1⟩
  simp [extract_sampled_depths, h0]

/-- Witness for C7 on a concrete all-zero raster. -/
theorem sample_no_valid_pixels_empty_witness :
    validIndices rasterAllZero = [] ∧
    ((extract_sampled_depths choiceNone rasterAllZero 5).rows = [] ∧
      (extract_sampled_depths choiceNone rasterAllZero 5).columns
        = ["Longitude", "Latitude", "InundationDepth_m"]) :=
  ⟨by decide, sample_no_valid_pixels_empty choiceNone rasterAllZero 5 (by decide)⟩

/-- C1: assuming only what numpy guarantees of
`np.random.choice(n, cap, replace=False)`, `sample` returns exactly
`min(valid_count, cap)` rows; the selected positions are distinct and drawn
from the valid set, when the valid count is at most the cap they are exactly
the valid positions (one row per valid pixel), and each row is the
transformed coordinates paired with the pixel value. -/
theorem sample_returns_min_valid_cap_rows (choice : ℕ → List ℕ) (R : Raster) (cap : ℕ)
    (hchoice : (validIndices R).length > cap →
      (choice (validIndices R).length).length = cap ∧
      (choice (validIndices R).length).Nodup ∧
      ∀ i ∈ choice (validIndices R).length, i < (validIndices R).length) :
    (extract_sampled_depths choice R cap).rows.length = min (validIndices R).length cap ∧
    (sampledIndices choice R cap).Nodup ∧
    (∀ x ∈ sampledIndices choice R cap, x ∈ validIndices R) ∧
    ((validIndices R).length ≤ cap → sampledIndices choice R cap = validIndices R) ∧
    (extract_sampled_depths choice R cap).rows
      = (sampledIndices choice R cap).map
          (fun p => ((R.transform p.1 p.2).1, (R.transform p.1 p.2).2, R.band p.1 p.2)) := by
  obtain ⟨hlen, hnd, hsub, hall⟩ := sampledIndices_spec choice R cap hchoice
  obtain ⟨_, hrows⟩ := extract_sampled_depths_eq choice R cap
  exact ⟨by rw [hrows, List.length_map, hlen], hnd, hsub, hall, hrows⟩

/-- Witness for C1: a raster with 3 valid pixels sampled with cap 2 by a
concrete admissible oracle. -/
theorem sample_returns_min_valid_cap_rows_witness :
    ((validIndices rasterThreeValid).length > 2 →
      (choicePickTwo (validIndices rasterThreeValid).length).length = 2 ∧
      (choicePickTwo (validIndices rasterThreeValid).length).Nodup ∧
      ∀ i ∈ choicePickTwo (validIndices rasterThreeValid).length,
        i < (validIndices rasterThreeValid).length) ∧
    ((extract_sampled_depths choicePickTwo rasterThreeValid 2).rows.length
        = min (validIndices rasterThreeValid).length 2 ∧
      (sampledIndices choicePickTwo rasterThreeValid 2).Nodup ∧
      (∀ x ∈ sampledIndices choicePickTwo rasterThreeValid 2,
        x ∈ validIndices rasterThreeValid) ∧
      ((validIndices rasterThreeValid).length ≤ 2 →
        sampledIndices choicePickTwo rasterThreeValid 2 = validIndices rasterThreeValid) ∧
      (extract_sampled_depths choicePickTwo rasterThreeValid 2).rows
        = (sampledIndices choicePickTwo rasterThreeValid 2).map
            (fun p => ((rasterThreeValid.transform p.1 p.2).1,
              (rasterThreeValid.transform p.1 p.2).2, rasterThreeValid.band p.1 p.2))) :=
  ⟨by decide, sample_returns_min_valid_cap_rows choicePickTwo rasterThreeValid 2 (by decide)⟩

/-- C4: after a merge the persisted table has no two identical rows; when the
prior table had no duplicates, the merged table is the prior table followed,
in order, by exactly those new rows that are not already present — so a
prior row wins over a newly sampled duplicate and new rows are appended
after. -/
theorem merge_nodup_first_occurrence (E N : List Row) (hE : E.Nodup) :
    (append_to_output_file (some E) N).Nodup ∧
    ∃ tail, append_to_output_file (some E) N = E ++ tail ∧
      tail.Sublist N ∧ ∀ r ∈ tail, r ∉ E := by
  have hunfold : append_to_output_file (some E) N = dropDupAux [] (E ++ N) := rfl
  constructor
  · rw [hunfold]
    exact (dropDupAux_nodup_notmem (E ++ N) []).1
  · refine ⟨dropDupAux E N, ?_, dropDupAux_sublist N E, ?_⟩
    · rw [hunfold, dropDupAux_append E [] N hE (by simp)]
      refine congrArg _ (dropDupAux_congr N (E ++ []) E ?_)
      simp
    · intro r hr
      exact (dropDupAux_nodup_notmem N E).2 r hr

/-- Witness for C4 on a concrete prior table and new rows sharing one row. -/
theorem merge_nodup_first_occurrence_witness :
    ([((1 : ℚ), (2 : ℚ), (3 : ℚ))] : List Row).Nodup ∧
    ((append_to_output_file (some [((1 : ℚ), (2 : ℚ), (3 : ℚ))])
        [((1 : ℚ), (2 : ℚ), (3 : ℚ)), ((4 : ℚ), (5 : ℚ), (6 : ℚ))]).Nodup ∧
      ∃ tail, append_to_output_file (some [((1 : ℚ), (2 : ℚ), (3 : ℚ))])
          [((1 : ℚ), (2 : ℚ), (3 : ℚ)), ((4 : ℚ), (5 : ℚ), (6 : ℚ))]
            = [((1 : ℚ), (2 : ℚ), (3 : ℚ))] ++ tail ∧
        tail.Sublist [((1 : ℚ), (2 : ℚ), (3 : ℚ)), ((4 : ℚ), (5 : ℚ), (6 : ℚ))] ∧
        ∀ r ∈ tail, r ∉ ([((1 : ℚ), (2 : ℚ), (3 : ℚ))] : List Row)) :=
  ⟨by decide, merge_nodup_first_occurrence [(1, 2, 3)] [(1, 2, 3), (4, 5, 6)] (by decide)⟩

/-- C5: merging a sample set whose rows are all already present in the
persisted (duplicate-free) table leaves the table unchanged, in particular
unchanged in row count. -/
theorem merge_subset_preserves_table (T S : List Row) (hT : T.Nodup)
    (hS : ∀ r ∈ S, r ∈ T) :
    append_to_output_file (some T) S = T ∧
    (append_to_output_file (some T) S).length = T.length := by
  have hunfold : append_to_output_file (some T) S = dropDupAux [] (T ++ S) := rfl
  have h1 : append_to_output_file (some T) S = T ++ dropDupAux T S := by
    rw [hunfold, dropDupAux_append T [] S hT (by simp)]
    refine congrArg _ (dropDupAux_congr S (T ++ []) T ?_)
    simp
  have h2 : dropDupAux T S = [] := dropDupAux_nil_of_subset S T hS
  rw [h1, h2, List.append_nil]
  exact ⟨rfl, rfl⟩

/-- Witness for C5 on a concrete table and a sample set contained in it. -/
theorem merge_subset_preserves_table_witness :
    (([((1 : ℚ), (2 : ℚ), (3 : ℚ)), ((4 : ℚ), (5 : ℚ), (6 : ℚ))] : List Row).Nodup ∧
      ∀ r ∈ ([((4 : ℚ), (5 : ℚ), (6 : ℚ))] : List Row),
        r ∈ ([((1 : ℚ), (2 : ℚ), (3 : ℚ)), ((4 : ℚ), (5 : ℚ), (6 : ℚ))] : List Row)) ∧
    (append_to_output_file (some [((1 : ℚ), (2 : ℚ), (3 : ℚ)), ((4 : ℚ), (5 : ℚ), (6 : ℚ))])
        [((4 : ℚ), (5 : ℚ), (6 : ℚ))]
          = [((1 : ℚ), (2 : ℚ), (3 : ℚ)), ((4 : ℚ), (5 : ℚ), (6 : ℚ))] ∧
      (append_to_output_file (some [((1 : ℚ), (2 : ℚ), (3 : ℚ)), ((4 : ℚ), (5 : ℚ), (6 : ℚ))])
        [((4 : ℚ), (5 : ℚ), (6 : ℚ))]).length
          = ([((1 : ℚ), (2 : ℚ), (3 : ℚ)), ((4 : ℚ), (5 : ℚ), (6 : ℚ))] : List Row).length) :=
  ⟨⟨by decide, by decide⟩,
    merge_subset_preserves_table [(1, 2, 3), (4, 5, 6)] [(4, 5, 6)] (by decide) (by decide)⟩

/-- C6: when reading the raster at the fetched path fails, `sample` yields
the empty three-column table, the merge step leaves the persisted table
unchanged, and the driver proceeds to the remaining sources. -/
theorem sample_failure_empty_pipeline_continues (http : Str → ℕ) (choice : ℕ → List ℕ)
    (rasterAt : Str → Except String Raster) (st : PipeState) (url : Str)
    (rest : List Str) (e : String)
    (h : rasterAt (joinPath DOWNLOAD_FOLDER (lastSegment url)) = Except.error e) :
    extract_sampled_depths_safe choice
        (rasterAt (joinPath DOWNLOAD_FOLDER (lastSegment url))) SAMPLE_LIMIT
      = ⟨tiffColumns, []⟩ ∧
    (processUrl http choice rasterAt st url).table = st.table ∧
    processAll http choice rasterAt (url :: rest) st
      = processAll http choice rasterAt rest (processUrl http choice rasterAt st url) := by
  refine ⟨by rw [h]; rfl, ?_, rfl⟩
  rcases download_file_path_shape http st.fs url with hn | hs
  · simp [processUrl, hn]
  · simp [processUrl, hs, h, extract_sampled_depths_safe]

/-- Witness for C6 with a reader that fails on every path. -/
theorem sample_failure_empty_pipeline_continues_witness :
    rasterAtFail (joinPath DOWNLOAD_FOLDER (lastSegment "http://h/bad.tif".toList))
      = Except.error "unreadable" ∧
    (extract_sampled_depths_safe choiceNone
        (rasterAtFail (joinPath DOWNLOAD_FOLDER (lastSegment "http://h/bad.tif".toList)))
        SAMPLE_LIMIT
      = ⟨tiffColumns, []⟩ ∧
    (processUrl httpOk choiceNone rasterAtFail initState "http://h/bad.tif".toList).table
      = initState.table ∧
    processAll httpOk choiceNone rasterAtFail
        ("http://h/bad.tif".toList :: ["http://h/ok.tif".toList]) initState
      = processAll httpOk choiceNone rasterAtFail ["http://h/ok.tif".toList]
          (processUrl httpOk choiceNone rasterAtFail initState "http://h/bad.tif".toList)) :=
  ⟨rfl, sample_failure_empty_pipeline_continues httpOk choiceNone rasterAtFail initState
    "http://h/bad.tif".toList ["http://h/ok.tif".toList] "unreadable" rfl⟩

/-- C3 counterexample: on a cache miss (i) a 206 response — a 2xx success —
yields `None`, because the code tests `status_code == 200` only; and (ii) an
exception raised by the transport itself (a connection error) is caught
neither in `download_file` nor in the driver loop: it propagates to the
pipeline driver, so absence is not the only failure signal it consumes. -/
theorem download_file_success_and_exception_counterexample :
    (pathExists (mkCacheDir emptyFS)
        (joinPath DOWNLOAD_FOLDER (lastSegment "http://h/a.tif".toList)) = false ∧
      (200 ≤ 206 ∧ 206 < 300) ∧
      (download_file (fun _ => 206) emptyFS "http://h/a.tif".toList).path = none) ∧
    (download_file_exc httpRaise emptyFS "http://h/a.tif".toList
        = Except.error "ConnectionError" ∧
      processUrl_exc httpRaise choiceNone rasterAtFail initState "http://h/a.tif".toList
        = Except.error "ConnectionError") :=
  ⟨by decide, rfl, rfl⟩

/-- C3 (amended): on a cache miss, when the transport answers with a status,
`download_file` returns the derived local path exactly when that status is
200 and returns `None` on any other status (other 2xx codes included), so
among status responses absence is the only failure signal consumed
downstream; an exception raised by the transport itself, however, is not
caught and propagates through `download_file` to the pipeline driver. -/
theorem download_file_exc_success_iff_200 (httpE : Str → Except String ℕ)
    (fs : FileSystem) (url : Str)
    (hmiss : pathExists (mkCacheDir fs) (joinPath DOWNLOAD_FOLDER (lastSegment url))
      = false) :
    (∀ s : ℕ, httpE url = Except.ok s →
      ∃ r : FetchResult, download_file_exc httpE fs url = Except.ok r ∧
        (r.path = some (joinPath DOWNLOAD_FOLDER (lastSegment url)) ↔ s = 200) ∧
        (s ≠ 200 → r.path = none)) ∧
    (∀ e : String, httpE url = Except.error e →
      download_file_exc httpE fs url = Except.error e ∧
      ∀ (choice : ℕ → List ℕ) (rasterAt : Str → Except String Raster)
        (table : Option (List Row)),
        processUrl_exc httpE choice rasterAt ⟨fs, table⟩ url = Except.error e) := by
  constructor
  · intro s hs
    by_cases h200 : s = 200
    · subst h200
      refine ⟨⟨some (joinPath DOWNLOAD_FOLDER (lastSegment url)),
          ⟨(mkCacheDir fs).dirs,
            joinPath DOWNLOAD_FOLDER (lastSegment url) :: (mkCacheDir fs).files⟩, 1⟩,
        ?_, by simp, fun hne => absurd rfl hne⟩
      simp [download_file_exc, hmiss, hs]
    · refine ⟨⟨none, mkCacheDir fs, 1⟩, ?_, by simp [h200], fun _ => rfl⟩
      simp [download_file_exc, hmiss, hs, h200]
  · intro e he
    have hd : download_file_exc httpE fs url = Except.error e := by
      simp [download_file_exc, hmiss, he]
    exact ⟨hd, fun choice rasterAt table => by simp [processUrl_exc, hd]⟩

/-- Witness for the amended C3: a 200-status transport yields the path on a
cache miss, and a raising transport propagates its exception through the
fetch step and the driver iteration. -/
theorem download_file_exc_success_iff_200_witness :
    pathExists (mkCacheDir emptyFS)
      (joinPath DOWNLOAD_FOLDER (lastSegment "http://h/a.tif".toList)) = false ∧
    httpOkE "http://h/a.tif".toList = Except.ok 200 ∧
    httpRaise "http://h/a.tif".toList = Except.error "ConnectionError" ∧
    (∃ r : FetchResult,
      download_file_exc httpOkE emptyFS "http://h/a.tif".toList = Except.ok r ∧
      (r.path = some (joinPath DOWNLOAD_FOLDER (lastSegment "http://h/a.tif".toList)) ↔
        (200 : ℕ) = 200) ∧
      ((200 : ℕ) ≠ 200 → r.path = none)) ∧
    (download_file_exc httpRaise emptyFS "http://h/a.tif".toList
        = Except.error "ConnectionError" ∧
      ∀ (choice : ℕ → List ℕ) (rasterAt : Str → Except String Raster)
        (table : Option (List Row)),
        processUrl_exc httpRaise choice rasterAt ⟨emptyFS, table⟩ "http://h/a.tif".toList
          = Except.error "ConnectionError") :=
  ⟨by decide, rfl, rfl,
    (download_file_exc_success_iff_200 httpOkE emptyFS "http://h/a.tif".toList
      (by decide)).1 200 rfl,
    (download_file_exc_success_iff_200 httpRaise emptyFS "http://h/a.tif".toList
      (by decide)).2 "ConnectionError" rfl⟩

/-- C8 counterexample: when the first fetch of a URL fails (status 500, so
no file is cached), calling `download_file` twice performs two network
transfers, refuting "calling fetch twice on the same URL returns the same
path with at most one transfer" as an unconditional statement. -/
theorem fetch_twice_transfers_counterexample :
    ¬ ((download_file (fun _ => 500) ⟨[], []⟩ "http://h/a.tif".toList).transfers
        + (download_file (fun _ => 500)
            (download_file (fun _ => 500) ⟨[], []⟩ "http://h/a.tif".toList).fs
            "http://h/a.tif".toList).transfers ≤ 1) := by
  decide

/-- C8 (amended): a cache hit returns the cached path immediately with no
transfer and no change to the filesystem; and whenever a first call returns
a path, a second call on the same URL returns that same path with no
transfer, for a total of at most one transfer across the two calls. -/
theorem fetch_cache_hit_idempotent (http : Str → ℕ) (fs : FileSystem) (url : Str) :
    (pathExists (mkCacheDir fs) (joinPath DOWNLOAD_FOLDER (lastSegment url)) = true →
      download_file http fs url
        = ⟨some (joinPath DOWNLOAD_FOLDER (lastSegment url)), mkCacheDir fs, 0⟩) ∧
    (∀ p, (download_file http fs url).path = some p →
      download_file http (download_file http fs url).fs url
          = ⟨some p, (download_file http fs url).fs, 0⟩ ∧
      (download_file http fs url).transfers
        + (download_file http (download_file http fs url).fs url).transfers ≤ 1) := by
  constructor
  · intro hhit
    simp [download_file, hhit]
  · intro p hp
    by_cases hhit : pathExists (mkCacheDir fs) (joinPath DOWNLOAD_FOLDER (lastSegment url))
        = true
    · have h1 : download_file http fs url
          = ⟨some (joinPath DOWNLOAD_FOLDER (lastSegment url)), mkCacheDir fs, 0⟩ := by
        simp [download_file, hhit]
      have hp' : joinPath DOWNLOAD_FOLDER (lastSegment url) = p := by
        rw [h1] at hp
        exact Option.some_inj.mp hp
      have hidem : mkCacheDir (mkCacheDir fs) = mkCacheDir fs :=
        mkCacheDir_eq_self _ (mkCacheDir_dirs_mem fs)
      have h2 : download_file http (mkCacheDir fs) url
          = ⟨some (joinPath DOWNLOAD_FOLDER (lastSegment url)), mkCacheDir fs, 0⟩ := by
        simp [download_file, hidem, hhit]
      refine ⟨?_, ?_⟩
      · rw [h1, ← hp']
        exact h2
      · rw [h1, h2]
        show (0 : ℕ) + 0 ≤ 1
        norm_num
    · have hmiss : pathExists (mkCacheDir fs) (joinPath DOWNLOAD_FOLDER (lastSegment url))
          = false := by
        simpa using hhit
      by_cases h200 : http url = 200
      · have h1 : download_file http fs url
            = ⟨some (joinPath DOWNLOAD_FOLDER (lastSegment url)),
                ⟨(mkCacheDir fs).dirs,
                  joinPath DOWNLOAD_FOLDER (lastSegment url) :: (mkCacheDir fs).files⟩, 1⟩ := by
          simp [download_file, hmiss, h200]
        have hp' : joinPath DOWNLOAD_FOLDER (lastSegment url) = p := by
          rw [h1] at hp
          exact Option.some_inj.mp hp
        have e1 : mkCacheDir (⟨(mkCacheDir fs).dirs,
              joinPath DOWNLOAD_FOLDER (lastSegment url) :: (mkCacheDir fs).files⟩ : FileSystem)
            = ⟨(mkCacheDir fs).dirs,
                joinPath DOWNLOAD_FOLDER (lastSegment url) :: (mkCacheDir fs).files⟩ :=
          mkCacheDir_eq_self _ (mkCacheDir_dirs_mem fs)
        have e2 : pathExists
            (⟨(mkCacheDir fs).dirs,
              joinPath DOWNLOAD_FOLDER (lastSegment url) :: (mkCacheDir fs).files⟩ : FileSystem)
            (joinPath DOWNLOAD_FOLDER (lastSegment url)) = true :=
          pathExists_of_file _ _ (List.mem_cons_self _ _)
        have h2 : download_file http
            (⟨(mkCacheDir fs).dirs,
              joinPath DOWNLOAD_FOLDER (lastSegment url) :: (mkCacheDir fs).files⟩ : FileSystem)
            url
            = ⟨some (joinPath DOWNLOAD_FOLDER (lastSegment url)),
                ⟨(mkCacheDir fs).dirs,
                  joinPath DOWNLOAD_FOLDER (lastSegment url) :: (mkCacheDir fs).files⟩, 0⟩ := by
          simp [download_file, e1, e2]
        refine ⟨?_, ?_⟩
        · rw [h1, ← hp']
          exact h2
        · rw [h1, h2]
          show (1 : ℕ) + 0 ≤ 1
          norm_num
      · have h1 : (download_file http fs url).path = none := by
          simp [download_file, hmiss, h200]
        rw [h1] at hp
        cases hp

/-- Witness for the amended C8: a successful first fetch followed by a
cache-hit second fetch. -/
theorem fetch_cache_hit_idempotent_witness :
    (download_file httpOk emptyFS "http://h/a.tif".toList).path
      = some "downloads/a.tif".toList ∧
    (download_file httpOk (download_file httpOk emptyFS "http://h/a.tif".toList).fs
        "http://h/a.tif".toList
      = ⟨some "downloads/a.tif".toList,
          (download_file httpOk emptyFS "http://h/a.tif".toList).fs, 0⟩ ∧
      (download_file httpOk emptyFS "http://h/a.tif".toList).transfers
        + (download_file httpOk (download_file httpOk emptyFS "http://h/a.tif".toList).fs
            "http://h/a.tif".toList).transfers ≤ 1) :=
  ⟨by decide, (fetch_cache_hit_idempotent httpOk emptyFS "http://h/a.tif".toList).2
    "downloads/a.tif".toList (by decide)⟩

/-- C10: for a URL ending in `/` the derived filename is empty, the derived
path is the cache directory itself (which exists once created), and
`download_file` returns it as a cache hit with no network request. -/
theorem fetch_trailing_slash_returns_cache_dir (http : Str → ℕ) (fs : FileSystem)
    (url s : Str) (h : url = s ++ ['/']) :
    lastSegment url = [] ∧
    joinPath DOWNLOAD_FOLDER (lastSegment url) = DOWNLOAD_FOLDER ++ ['/'] ∧
    download_file http fs url = ⟨some (DOWNLOAD_FOLDER ++ ['/']), mkCacheDir fs, 0⟩ := by
  subst h
  have hseg : lastSegment (s ++ ['/']) = [] := lastSegment_append_slash s
  have hjoin : joinPath DOWNLOAD_FOLDER (lastSegment (s ++ ['/']))
      = DOWNLOAD_FOLDER ++ ['/'] := by
    rw [hseg, joinPath, List.append_nil]
  have hex : pathExists (mkCacheDir fs) (DOWNLOAD_FOLDER ++ ['/']) = true :=
    pathExists_dir_slash _ _ (mkCacheDir_dirs_mem fs)
  refine ⟨hseg, hjoin, ?_⟩
  simp [download_file, hjoin, hex]

/-- Witness for C10 on a concrete URL ending in a slash, against an HTTP
layer that would fail if consulted. -/
theorem fetch_trailing_slash_returns_cache_dir_witness :
    "http://h/".toList = "http://h".toList ++ ['/'] ∧
    (lastSegment "http://h/".toList = [] ∧
      joinPath DOWNLOAD_FOLDER (lastSegment "http://h/".toList)
        = DOWNLOAD_FOLDER ++ ['/'] ∧
      download_file httpFail emptyFS "http://h/".toList
        = ⟨some (DOWNLOAD_FOLDER ++ ['/']), mkCacheDir emptyFS, 0⟩) :=
  ⟨by decide, fetch_trailing_slash_returns_cache_dir httpFail emptyFS
    "http://h/".toList "http://h".toList (by decide)⟩
